import Mathlib

/-!
Verification development for the inventory-cataloging web application
(item store, analysis adapter, HTTP handlers, client upload flows).

The server and client logic is shallowly embedded here:

* JSON values and parsing (`Json`, `parse`) model the `JSON.parse` calls of
  the analyze handler; the markdown-fence fallback (`extractFence`,
  `parseData`) models the regex fallback in the handler.  Strings are
  modelled as `List Char`; whitespace is the ASCII whitespace relevant to
  the inputs considered.  JavaScript number-to-string canonicalisation and
  floating-point value semantics are not modelled: numbers keep their raw
  lexeme, which is faithful for every property proved here.
* `normalize` models the response-normalisation object literal of the
  analyze route; `normalize4` the variant with the model-fallback cascade.
* `tryModels` / `analyzeUpload` model the `modelsToTry` loop of the
  analyze upload handler.
* `Item` / `applyPatch` / `updateItem` / `deleteItem` / `getItems` model
  the storage layer; `putItemHandler` / `deleteItemHandler` the Express
  handlers.
* `handleCapture` / `batchFileFlow` / `batchRun` model the client upload
  flows as traces of the externally visible actions they perform.
-/

namespace TangleTrove

/-! ## Character-list utilities (whitespace, trimming) -/

/-- ASCII whitespace, as skipped by `JSON.parse`, by the regex class and by
`String.prototype.trim` on the inputs considered here. -/
def isWs (c : Char) : Bool :=
  c == ' ' || c == '\t' || c == '\n' || c == '\r'

/-- Drop leading whitespace. -/
def dropWs (l : List Char) : List Char := l.dropWhile isWs

/-- Drop trailing whitespace. -/
def dropWsEnd (l : List Char) : List Char := (l.reverse.dropWhile isWs).reverse

/-- `String.prototype.trim`: drop whitespace at both ends. -/
def trimList (l : List Char) : List Char := dropWsEnd (dropWs l)

/-! ## JSON values -/

/-- A parsed JSON value.  Numbers keep their raw lexeme: no claim proved here
depends on numeric value semantics, only on lexeme identity. -/
inductive Json where
  | null : Json
  | bool : Bool → Json
  | num : String → Json
  | str : String → Json
  | arr : List Json → Json
  | obj : List (String × Json) → Json

/-- Digit character test. -/
def isDigit (c : Char) : Bool := '0' ≤ c && c ≤ '9'

/-- Value of one hexadecimal digit. -/
def hexDigitVal (c : Char) : Option Nat :=
  if isDigit c then some (c.toNat - 48)
  else if 'a' ≤ c && c ≤ 'f' then some (c.toNat - 97 + 10)
  else if 'A' ≤ c && c ≤ 'F' then some (c.toNat - 65 + 10)
  else none

/-- Decode a two-character escape (the char after the backslash). -/
def escCode (e : Char) : Option Char :=
  if e == '"' then some '"'
  else if e == '\\' then some '\\'
  else if e == '/' then some '/'
  else if e == 'b' then some (Char.ofNat 8)
  else if e == 'f' then some (Char.ofNat 12)
  else if e == 'n' then some '\n'
  else if e == 'r' then some '\r'
  else if e == 't' then some '\t'
  else none

/-- Body of a JSON string literal, after the opening quote.  Returns the
decoded characters and the remaining input.  Unescaped control characters
are rejected, as `JSON.parse` rejects them; `\uXXXX` escapes denoting
surrogate halves are rejected (Lean `Char` holds scalar values only; no
claim involves them). -/
def parseStringBody : List Char → Option (List Char × List Char)
  | [] => none
  | c :: rest =>
    if c == '"' then some ([], rest)
    else if c == '\\' then
      match rest with
      | [] => none
      | e :: rest2 =>
        if e == 'u' then
          match rest2 with
          | a :: b :: c2 :: d :: rest3 =>
            match hexDigitVal a, hexDigitVal b, hexDigitVal c2, hexDigitVal d with
            | some ha, some hb, some hc, some hd =>
              let n := ((ha * 16 + hb) * 16 + hc) * 16 + hd
              if n < 55296 then
                (parseStringBody rest3).map (fun p => (Char.ofNat n :: p.1, p.2))
              else if 57344 ≤ n then
                (parseStringBody rest3).map (fun p => (Char.ofNat n :: p.1, p.2))
              else none
            | _, _, _, _ => none
          | _ => none
        else
          match escCode e with
          | some ch => (parseStringBody rest2).map (fun p => (ch :: p.1, p.2))
          | none => none
    else if c.toNat < 32 then none
    else (parseStringBody rest).map (fun p => (c :: p.1, p.2))

/-- Integer part of a number lexeme: `0`, or a nonzero digit followed by
digits (JSON forbids leading zeros). -/
def parseIntPart : List Char → Option (List Char × List Char)
  | [] => none
  | c :: r =>
    if c == '0' then some ([c], r)
    else if isDigit c then
      let p := r.span isDigit
      some (c :: p.1, p.2)
    else none

/-- Optional fractional part `.digits` of a number lexeme. -/
def parseFracPart (l : List Char) : Option (List Char × List Char) :=
  match l with
  | '.' :: r =>
    let p := r.span isDigit
    if p.1.isEmpty then none else some ('.' :: p.1, p.2)
  | r => some ([], r)

/-- Optional exponent part `e[+-]digits` of a number lexeme. -/
def parseExpPart (l : List Char) : Option (List Char × List Char) :=
  match l with
  | [] => some ([], [])
  | c :: r =>
    if c == 'e' || c == 'E' then
      let (sgn, r2) : List Char × List Char :=
        match r with
        | s :: r2 => if s == '+' || s == '-' then ([s], r2) else ([], r)
        | [] => ([], r)
      let p := r2.span isDigit
      if p.1.isEmpty then none else some (c :: (sgn ++ p.1), p.2)
    else some ([], c :: r)

/-- A full number lexeme, maximal munch, as accepted by `JSON.parse`. -/
def parseNumberLex (l : List Char) : Option (List Char × List Char) :=
  match l with
  | '-' :: r => do
    let (i, r1) ← parseIntPart r
    let (f, r2) ← parseFracPart r1
    let (e, r3) ← parseExpPart r2
    some ('-' :: (i ++ f ++ e), r3)
  | r => do
    let (i, r1) ← parseIntPart r
    let (f, r2) ← parseFracPart r1
    let (e, r3) ← parseExpPart r2
    some (i ++ f ++ e, r3)

/-- Replace the value of `k` in place if present (keeping first position, as a
later JavaScript property assignment does), else append the new member. -/
def setField : List (String × Json) → String → Json → List (String × Json)
  | [], k, v => [(k, v)]
  | (k0, v0) :: fs, k, v =>
    if k0 == k then (k0, v) :: fs else (k0, v0) :: setField fs k v

/-- Collapse duplicate keys, later occurrence winning, as `JSON.parse` does. -/
def normFields (fs : List (String × Json)) : List (String × Json) :=
  fs.foldl (fun acc kv => setField acc kv.1 kv.2) []

mutual

/-- One JSON value (leading whitespace allowed), returning the rest of the
input.  Structural on the fuel; the top entry point passes `length + 1`,
which suffices since every recursive call consumes input. -/
def parseValue : Nat → List Char → Option (Json × List Char)
  | 0, _ => none
  | fuel + 1, l =>
    match dropWs l with
    | [] => none
    | c :: rest =>
      if c = '\x7b' then
        match dropWs rest with
        | '\x7d' :: r2 => some (Json.obj [], r2)
        | r2 => (parseMembers fuel r2).map (fun p => (Json.obj (normFields p.1), p.2))
      else if c = '[' then
        match dropWs rest with
        | ']' :: r2 => some (Json.arr [], r2)
        | r2 => (parseElems fuel r2).map (fun p => (Json.arr p.1, p.2))
      else if c = '"' then
        (parseStringBody rest).map (fun p => (Json.str (String.mk p.1), p.2))
      else if c = 't' then
        match rest with
        | 'r' :: 'u' :: 'e' :: r => some (Json.bool true, r)
        | _ => none
      else if c = 'f' then
        match rest with
        | 'a' :: 'l' :: 's' :: 'e' :: r => some (Json.bool false, r)
        | _ => none
      else if c = 'n' then
        match rest with
        | 'u' :: 'l' :: 'l' :: r => some (Json.null, r)
        | _ => none
      else if c = '-' ∨ isDigit c then
        (parseNumberLex (c :: rest)).map (fun p => (Json.num (String.mk p.1), p.2))
      else none

/-- One-or-more comma-separated array elements, up to the closing bracket. -/
def parseElems : Nat → List Char → Option (List Json × List Char)
  | 0, _ => none
  | fuel + 1, l =>
    match parseValue fuel l with
    | none => none
    | some (v, r) =>
      match dropWs r with
      | ',' :: r2 => (parseElems fuel r2).map (fun p => (v :: p.1, p.2))
      | ']' :: r2 => some ([v], r2)
      | _ => none

/-- One-or-more comma-separated object members, up to the closing brace.
The input must start at the key (whitespace already consumed). -/
def parseMembers : Nat → List Char → Option (List (String × Json) × List Char)
  | 0, _ => none
  | fuel + 1, l =>
    match l with
    | '"' :: r =>
      match parseStringBody r with
      | none => none
      | some (k, r1) =>
        match dropWs r1 with
        | ':' :: r2 =>
          match parseValue fuel r2 with
          | none => none
          | some (v, r3) =>
            match dropWs r3 with
            | ',' :: r4 =>
              (parseMembers fuel (dropWs r4)).map
                (fun p => ((String.mk k, v) :: p.1, p.2))
            | '\x7d' :: r4 => some ([(String.mk k, v)], r4)
            | _ => none
        | _ => none
    | _ => none

end

/-- Parse a whole (already trimmed) input as one JSON value followed only by
whitespace. -/
def parseCore (l : List Char) : Option Json :=
  match parseValue (l.length + 1) l with
  | none => none
  | some (v, rest) => if (dropWs rest).isEmpty then some v else none

/-- `JSON.parse`: surrounding whitespace is irrelevant, so the input is
trimmed first. -/
def parse (l : List Char) : Option Json := parseCore (trimList l)

/-! ## Markdown-fence fallback of the analyze handler

Models `responseText.match(/\x60\x60\x60(?:json)?\s*([\s\S]*?)\x60\x60\x60/)`
followed by `JSON.parse(jsonMatch[1].trim())`. -/

/-- Does the input start with a triple-backtick fence? -/
def startsWithFence (l : List Char) : Bool :=
  match l with
  | a :: b :: c :: _ => decide (a = '\x60' ∧ b = '\x60' ∧ c = '\x60')
  | _ => false

/-- Does a triple-backtick fence occur anywhere in the input? -/
def hasFence : List Char → Bool
  | [] => false
  | c :: rest => startsWithFence (c :: rest) || hasFence rest

/-- Scan to the first fence: the characters before it and the input after
its three backticks. -/
def scanToFence : List Char → Option (List Char × List Char)
  | [] => none
  | c :: rest =>
    if startsWithFence (c :: rest) then some ([], rest.drop 2)
    else (scanToFence rest).map (fun p => (c :: p.1, p.2))

/-- The optional literal `json` tag right after the opening fence. -/
def stripJsonTag : List Char → List Char
  | 'j' :: 's' :: 'o' :: 'n' :: r => r
  | l => l

/-- The capture group of the fence regex: after the first fence, drop the
optional `json` tag and the following whitespace, then take everything up to
the next fence (the lazy capture).  `none` when the regex does not match. -/
def extractFence (s : List Char) : Option (List Char) :=
  match scanToFence s with
  | none => none
  | some (_, afterOpen) =>
    match scanToFence (dropWs (stripJsonTag afterOpen)) with
    | none => none
    | some (inner, _) => some inner

/-- The analyze handler's response parsing: direct `JSON.parse`, then the
fenced-block fallback (whose capture is trimmed before parsing), and failure
only if both fail. -/
def parseData (s : List Char) : Option Json :=
  match parse s with
  | some d => some d
  | none =>
    match extractFence s with
    | none => none
    | some inner => parse (trimList inner)

/-- `t` wrapped in a markdown fenced code block (with the customary `json`
info string), as in the claim about fenced responses. -/
def wrapFence (t : List Char) : List Char :=
  '\x60' :: '\x60' :: '\x60' :: 'j' :: 's' :: 'o' :: 'n' :: '\n' ::
    (t ++ ['\n', '\x60', '\x60', '\x60'])

/-! ## JSON serialisation (`JSON.stringify`) -/

/-- One hexadecimal digit character. -/
def hexDigitChar (n : Nat) : Char :=
  if n < 10 then Char.ofNat (48 + n) else Char.ofNat (87 + n)

/-- Escape one character for a JSON string literal. -/
def escapeChar (c : Char) : List Char :=
  if c == '"' then ['\\', '"']
  else if c == '\\' then ['\\', '\\']
  else if c == '\n' then ['\\', 'n']
  else if c == '\r' then ['\\', 'r']
  else if c == '\t' then ['\\', 't']
  else if c == Char.ofNat 8 then ['\\', 'b']
  else if c == Char.ofNat 12 then ['\\', 'f']
  else if c.toNat < 32 then
    ['\\', 'u', '0', '0', hexDigitChar (c.toNat / 16), hexDigitChar (c.toNat % 16)]
  else [c]

/-- Escape a whole string for a JSON string literal. -/
def escapeString (s : String) : String :=
  String.mk (s.data.foldr (fun c acc => escapeChar c ++ acc) [])

mutual

/-- `JSON.stringify` (compact form, which is what the handler calls). -/
def stringify : Json → String
  | Json.null => "null"
  | Json.bool true => "true"
  | Json.bool false => "false"
  | Json.num raw => raw
  | Json.str s => "\"" ++ escapeString s ++ "\""
  | Json.arr xs => "[" ++ stringifyElems xs ++ "]"
  | Json.obj fs => "\x7b" ++ stringifyMembers fs ++ "\x7d"

/-- Comma-separated serialised array elements. -/
def stringifyElems : List Json → String
  | [] => ""
  | [x] => stringify x
  | x :: y :: xs => stringify x ++ "," ++ stringifyElems (y :: xs)

/-- Comma-separated serialised object members. -/
def stringifyMembers : List (String × Json) → String
  | [] => ""
  | [(k, v)] => "\"" ++ escapeString k ++ "\":" ++ stringify v
  | kv :: kw :: fs =>
    "\"" ++ escapeString kv.1 ++ "\":" ++ stringify kv.2 ++ "," ++
      stringifyMembers (kw :: fs)

end

/-! ## JavaScript-side value helpers -/

/-- Property lookup on an object's member list (later duplicates have been
collapsed by `normFields`, so first match is the property). -/
def getField : List (String × Json) → String → Option Json
  | [], _ => none
  | (k0, v0) :: fs, k => if k0 == k then some v0 else getField fs k

/-- `data.key` on a parsed JSON value: `none` models `undefined`. -/
def jsGet : Json → String → Option Json
  | Json.obj fs, k => getField fs k
  | _, _ => none

/-- Is a JSON number lexeme the number zero?  All mantissa digits are `0`
(the exponent cannot make a nonzero mantissa zero). -/
def numIsZero (raw : String) : Bool :=
  (raw.data.takeWhile (fun c => !(c == 'e' || c == 'E'))).all
    (fun c => !isDigit c || c == '0')

/-- JavaScript truthiness of a parsed JSON value. -/
def truthy : Json → Bool
  | Json.null => false
  | Json.bool b => b
  | Json.num raw => !numIsZero raw
  | Json.str s => !s.isEmpty
  | Json.arr _ => true
  | Json.obj _ => true

/-- `typeof v === 'object'` for a defined parsed JSON value: true exactly
for `null`, arrays and objects. -/
def typeofIsObject : Json → Bool
  | Json.null => true
  | Json.arr _ => true
  | Json.obj _ => true
  | _ => false

/-- `x || d` on an optional property: the default when absent or falsy. -/
def jsOr (x : Option Json) (d : Json) : Json :=
  match x with
  | none => d
  | some v => if truthy v then v else d

/-! ## Response normalisation (analyze route) -/

/-- The `normalized` object literal built by the analyze route. -/
structure NormalizedPayload where
  name : Json
  brand : Option Json
  edition : Option Json
  year : Option Json
  identifiers : Option Json
  vibes : Json
  ambientData : Json

/-- The analyze route's normalisation of the parsed AI response `data`:
`name` defaulted through `||` to the placeholder, object-typed
`identifiers` serialised, non-array `vibes` replaced by `[]`, the raw
`data` passed through as `ambientData`. -/
def normalize (data : Json) : NormalizedPayload :=
  { name := jsOr (jsGet data "name") (Json.str "Unknown Item")
  , brand := jsGet data "brand"
  , edition := jsGet data "edition"
  , year := jsGet data "year"
  , identifiers :=
      match jsGet data "identifiers" with
      | none => none
      | some v =>
        if typeofIsObject v then some (Json.str (stringify v)) else some v
  , vibes :=
      match jsGet data "vibes" with
      | some (Json.arr xs) => Json.arr xs
      | _ => Json.arr []
  , ambientData := data }

/-! ## Item store (schema, storage layer, route handlers) -/

/-- A row of the `items` table.  `addedAt` is the creation timestamp
(modelled as a number). -/
structure Item where
  id : Nat
  name : String
  brand : Option String
  edition : Option String
  year : Option String
  identifiers : Option String
  vibes : Option (List String)
  qty : Int
  status : String
  addedAt : Nat
  ambientData : Option Json
  imageUrl : Option String

/-- A body for `PUT /api/items/:id` after validation by
`insertItemSchema.partial()`: every insertable column optionally present
(the schema omits `id` and `addedAt`, so a patch cannot carry them; unknown
keys are stripped by the schema). -/
structure ItemPatch where
  name : Option String := none
  brand : Option (Option String) := none
  edition : Option (Option String) := none
  year : Option (Option String) := none
  identifiers : Option (Option String) := none
  vibes : Option (Option (List String)) := none
  qty : Option Int := none
  status : Option String := none
  ambientData : Option (Option Json) := none
  imageUrl : Option (Option String) := none

/-- `db.update(items).set(updates)` on one row: supplied columns are set,
absent columns keep their value; `id` and `addedAt` are not in the patch. -/
def applyPatch (it : Item) (p : ItemPatch) : Item :=
  { id := it.id
  , name := p.name.getD it.name
  , brand := p.brand.getD it.brand
  , edition := p.edition.getD it.edition
  , year := p.year.getD it.year
  , identifiers := p.identifiers.getD it.identifiers
  , vibes := p.vibes.getD it.vibes
  , qty := p.qty.getD it.qty
  , status := p.status.getD it.status
  , addedAt := it.addedAt
  , ambientData := p.ambientData.getD it.ambientData
  , imageUrl := p.imageUrl.getD it.imageUrl }

/-- Row lookup by primary key. -/
def findItem (store : List Item) (id : Nat) : Option Item :=
  store.find? (fun it => it.id == id)

/-- `DatabaseStorage.updateItem`: set the supplied columns on the matching
row and return the updated row — `none` (JavaScript `undefined`) when no row
matches; no error is raised in that case. -/
def updateItem (store : List Item) (id : Nat) (p : ItemPatch) :
    Option Item × List Item :=
  ((findItem store id).map (fun it => applyPatch it p),
   store.map (fun it => if it.id == id then applyPatch it p else it))

/-- `DatabaseStorage.deleteItem`: remove any matching row; no error when
none matches. -/
def deleteItem (store : List Item) (id : Nat) : List Item :=
  store.filter (fun it => !(it.id == id))

/-- Newest-first order used by `getItems` (`orderBy(desc(items.addedAt))`). -/
def recencyGE (a b : Item) : Prop := b.addedAt ≤ a.addedAt

instance : DecidableRel recencyGE :=
  fun a b => inferInstanceAs (Decidable (b.addedAt ≤ a.addedAt))

instance : IsTotal Item recencyGE :=
  ⟨fun a b => (Nat.le_total b.addedAt a.addedAt).imp id id⟩

instance : IsTrans Item recencyGE :=
  ⟨fun _ _ _ hab hbc => Nat.le_trans hbc hab⟩

/-- `DatabaseStorage.getItems`: all rows, ordered by `addedAt` descending. -/
def getItems (store : List Item) : List Item :=
  List.insertionSort recencyGE store

/-- The response of the `PUT /api/items/:id` handler: `res.json(item)` on
the non-throwing path (`item` may be `undefined`), 400 on any thrown
error. -/
inductive UpdateResponse where
  | ok (item : Option Item)
  | badRequest

/-- HTTP status of an update response. -/
def updateStatus : UpdateResponse → Nat
  | UpdateResponse.ok _ => 200
  | UpdateResponse.badRequest => 400

/-- The `PUT /api/items/:id` handler: parse the body (`none` models a
validation failure, caught as 400), call `updateItem`, and serialise
whatever it returned. -/
def putItemHandler (store : List Item) (id : Nat) (body : Option ItemPatch) :
    UpdateResponse × List Item :=
  match body with
  | none => (UpdateResponse.badRequest, store)
  | some p =>
    let r := updateItem store id p
    (UpdateResponse.ok r.1, r.2)

/-- The `DELETE /api/items/:id` handler: always delete then 204. -/
def deleteItemHandler (store : List Item) (id : Nat) : Nat × List Item :=
  (204, deleteItem store id)

/-! ## Analyze upload handler (model fallback cascade variant) -/

/-- The prioritized model identifiers of the analyze upload handler. -/
def modelsToTry : List String :=
  ["gemini-2.0-flash", "gemini-2.0-flash-exp", "gemini-1.5-flash",
   "gemini-1.5-flash-latest", "gemini-pro-vision", "gemini-pro"]

/-- The `for (const modelName of modelsToTry)` loop: call each model in
order, breaking at the first success; `none` when every call failed
(`result` stays `null` and the last error is rethrown). -/
def tryModels (call : String → Option (List Char)) :
    List String → Option (String × List Char)
  | [] => none
  | m :: ms =>
    match call m with
    | some r => some (m, r)
    | none => tryModels call ms

mutual

/-- `String(v)` on a parsed JSON value (arrays join their elements with
commas, `null` elements becoming empty; objects print the object tag).
Number re-formatting is not modelled (the lexeme is kept); no claim
depends on it. -/
def jsToString : Json → String
  | Json.null => "null"
  | Json.bool true => "true"
  | Json.bool false => "false"
  | Json.num raw => raw
  | Json.str s => s
  | Json.arr xs => jsJoin xs
  | Json.obj _ => "[object Object]"

def jsJoin : List Json → String
  | [] => ""
  | [x] => jsElem x
  | x :: y :: xs => jsElem x ++ "," ++ jsJoin (y :: xs)

def jsElem : Json → String
  | Json.null => ""
  | v => jsToString v

end

/-- The `normalized` literal of the cascade variant of the analyze route:
`String()`-coerced optional fields defaulting to `null`, serialised
object-typed `identifiers`, `vibes` defaulting to `[]`, the raw data as
`ambientData` (its re-spread adds no observable key), and the uploaded
image as a data URL. -/
structure Normalized4 where
  name : Json
  brand : Json
  edition : Json
  year : Json
  identifiers : Json
  vibes : Json
  ambientData : Json
  imageUrl : Json

/-- `v ? String(v) : null` on an optional property. -/
def coerceOrNull (x : Option Json) : Json :=
  match x with
  | none => Json.null
  | some v => if truthy v then Json.str (jsToString v) else Json.null

/-- Normalisation performed by the cascade variant of the analyze route. -/
def normalize4 (data : Json) (imageDataUrl : String) : Normalized4 :=
  { name := jsOr (jsGet data "name") (Json.str "Unknown Item")
  , brand := coerceOrNull (jsGet data "brand")
  , edition := coerceOrNull (jsGet data "edition")
  , year := coerceOrNull (jsGet data "year")
  , identifiers :=
      match jsGet data "identifiers" with
      | none => Json.null
      | some v =>
        if typeofIsObject v then Json.str (stringify v)
        else if truthy v then Json.str (jsToString v) else Json.null
  , vibes :=
      match jsGet data "vibes" with
      | some (Json.arr xs) => Json.arr xs
      | _ => Json.arr []
  , ambientData := data
  , imageUrl := Json.str imageDataUrl }

/-- The `POST /api/analyze/upload` handler: reject when unconfigured or
without a file, try the model cascade, fail with 500 when every model call
failed, when the response text is empty, or when both parse attempts fail;
otherwise answer 200 with the normalised payload.  The handler never
touches the item store: the store passes through unchanged on every path. -/
def analyzeUpload (call : String → Option (List Char)) (hasKey : Bool)
    (hasFile : Bool) (imageDataUrl : String) (store : List Item) :
    (Nat × Option Normalized4) × List Item :=
  if !hasKey then ((500, none), store)
  else if !hasFile then ((400, none), store)
  else
    match tryModels call modelsToTry with
    | none => ((500, none), store)
    | some (_, text) =>
      if text.isEmpty then ((500, none), store)
      else
        match parseData text with
        | none => ((500, none), store)
        | some data => ((200, some (normalize4 data imageDataUrl)), store)

/-! ## Client upload flows -/

/-- An externally visible action of the client upload flows. -/
inductive ClientAction where
  | resizeThumb (file : Nat) (maxWidth : Nat) (quality : ℚ)
  | postAnalyze (file : Nat)
  | postCreate (payload : Json)

/-- `\x7b...data, k: v\x7d`: object spread overriding one key (replace in
place, else append; spreading a non-object contributes no members for the
payloads arising here). -/
def jsSpreadSet (d : Json) (k : String) (v : Json) : Json :=
  match d with
  | Json.obj fs => Json.obj (setField fs k v)
  | _ => Json.obj [(k, v)]

/-- `handleCapture`: post the raw file to the analysis endpoint, then post
the analysis response itself to the create endpoint (no client-side resize
and no imageUrl substitution happen in this flow). -/
def handleCapture (analyze : Nat → Option Json) (file : Nat) :
    List ClientAction :=
  ClientAction.postAnalyze file ::
    match analyze file with
    | some d => [ClientAction.postCreate d]
    | none => []

/-- One file of `handleBatch`: resize to a 400px / 0.7-quality thumbnail,
post the raw file to the analysis endpoint, and on success post the
response with the thumbnail replacing any returned `imageUrl`. -/
def batchFileFlow (resizeImage : Nat → Nat → ℚ → String)
    (analyze : Nat → Option Json) (file : Nat) : List ClientAction :=
  ClientAction.resizeThumb file 400 (7 / 10) ::
    ClientAction.postAnalyze file ::
      match analyze file with
      | some d =>
        [ClientAction.postCreate
          (jsSpreadSet d "imageUrl" (Json.str (resizeImage file 400 (7 / 10))))]
      | none => []

/-- The create payload produced for one file of the batch, when its
analysis succeeds. -/
def payloadOf (resizeImage : Nat → Nat → ℚ → String)
    (analyze : Nat → Option Json) (file : Nat) : Option Json :=
  (analyze file).map
    (fun d => jsSpreadSet d "imageUrl" (Json.str (resizeImage file 400 (7 / 10))))

/-- The `for (const file of files)` loop of `handleBatch` acting on the
created items: strictly sequential, appending one created item per
successful file, skipping failed files and never revisiting earlier
items. -/
def batchRun (resizeImage : Nat → Nat → ℚ → String)
    (analyze : Nat → Option Json) : List Nat → List Json → List Json
  | [], store => store
  | f :: rest, store =>
    match analyze f with
    | some d =>
      batchRun resizeImage analyze rest
        (store ++ [jsSpreadSet d "imageUrl" (Json.str (resizeImage f 400 (7 / 10)))])
    | none => batchRun resizeImage analyze rest store

/-- The `setProcessingCount` values observed after each file of the batch:
`done` increments once per file, failures included. -/
def batchCounts : List Nat → Nat → Nat → List (Nat × Nat)
  | [], _, _ => []
  | _ :: rest, total, done => (done + 1, total) :: batchCounts rest total (done + 1)

/-! ## Concrete instances used by the witnesses below -/

/-- A sample stored item. -/
def itA : Item :=
  { id := 1, name := "Comic", brand := none, edition := none, year := none
  , identifiers := none, vibes := none, qty := 1, status := "ACTIVE"
  , addedAt := 100, ambientData := none, imageUrl := none }

/-- A patch supplying only a new name. -/
def pName : ItemPatch := { name := some "New" }

/-- A model-call oracle on which every model fails. -/
def callAllFail : String → Option (List Char) := fun _ => none

/-- An analysis oracle answering a payload that carries a server-side
image URL. -/
def dSrv : Json :=
  Json.obj [("imageUrl", Json.str "server-full-image"), ("name", Json.str "X")]

/-- An analysis oracle that always succeeds with `dSrv`. -/
def analyzeSrv : Nat → Option Json := fun _ => some dSrv

/-- An analysis oracle that always fails. -/
def analyzeFail : Nat → Option Json := fun _ => none

/-- A resize oracle producing a fixed thumbnail token. -/
def resizeConst : Nat → Nat → ℚ → String := fun _ _ _ => "thumb"

/-- AI-response members with an object-typed `identifiers` and no `name`
or `vibes`. -/
def fsId : List (String × Json) :=
  [("identifiers", Json.obj [("isbn", Json.str "123")])]

/-- AI-response members whose `identifiers` is JSON `null`. -/
def fsNull : List (String × Json) := [("identifiers", Json.null)]

/-- A JSON text whose single string value contains a triple-backtick
fence. -/
def ceT : List Char :=
  ['\x7b', '"', 'a', '"', ':', '"', 'x', '\x60', '\x60', '\x60', 'y', '"', '\x7d']

/-! # Theorems -/

/-! ## Helper lemmas -/

/-- The head surviving a `dropWhile` fails the predicate. -/
theorem dropWhile_head_false {p : Char → Bool} :
    ∀ {l : List Char} {c : Char} {r : List Char},
      l.dropWhile p = c :: r → p c = false := by
  intro l
  induction l with
  | nil => intro c r h; simp at h
  | cons a l ih =>
    intro c r h
    rw [List.dropWhile_cons] at h
    by_cases ha : p a = true
    · rw [if_pos ha] at h
      exact ih h
    · rw [if_neg ha] at h
      cases h
      exact Bool.eq_false_iff.mpr ha

/-- `dropWhile` of a list with a surviving head is the list itself. -/
theorem dropWhile_of_head_false {p : Char → Bool} {c : Char} (r : List Char)
    (hc : p c = false) : (c :: r).dropWhile p = c :: r := by
  rw [List.dropWhile_cons, if_neg (by simp [hc])]

/-- Leading whitespace removal is idempotent. -/
theorem dropWs_dropWs (l : List Char) : dropWs (dropWs l) = dropWs l :=
  List.dropWhile_idempotent isWs l

/-- Splitting `dropWs` over an append whose left part does not vanish. -/
theorem dropWs_append_of_ne_nil {a : List Char} (b : List Char)
    (h : dropWs a ≠ []) : dropWs (a ++ b) = dropWs a ++ b := by
  have he : (List.dropWhile isWs a).isEmpty = false := by
    cases hh : List.dropWhile isWs a with
    | nil => exact absurd hh h
    | cons x xs => rfl
  rw [dropWs, List.dropWhile_append, if_neg (by simp [he])]
  rfl

/-- Trailing whitespace removal is idempotent. -/
theorem dropWsEnd_dropWsEnd (l : List Char) :
    dropWsEnd (dropWsEnd l) = dropWsEnd l := by
  rw [dropWsEnd, dropWsEnd, List.reverse_reverse, List.dropWhile_idempotent]

/-- Trailing whitespace removal ignores an appended whitespace character. -/
theorem dropWsEnd_append_nl (l : List Char) :
    dropWsEnd (l ++ ['\n']) = dropWsEnd l := by
  rw [dropWsEnd, dropWsEnd, List.reverse_append]
  rfl

/-- A list starting free of whitespace stays free of leading whitespace
after trailing trimming. -/
theorem dropWs_dropWsEnd (m : List Char) (hm : dropWs m = m) :
    dropWs (dropWsEnd m) = dropWsEnd m := by
  cases m with
  | nil => rfl
  | cons c r =>
    have hc : isWs c = false := dropWhile_head_false hm
    rw [dropWsEnd, List.reverse_cons, List.dropWhile_append]
    by_cases he : (List.dropWhile isWs r.reverse).isEmpty = true
    · rw [if_pos he]
      rw [dropWhile_of_head_false [] hc]
      simp [dropWs, dropWhile_of_head_false _ hc]
    · rw [if_neg he]
      rw [List.reverse_append]
      simp only [List.reverse_cons, List.reverse_nil, List.nil_append]
      exact dropWhile_of_head_false _ hc

/-- `trim` is idempotent. -/
theorem trimList_idem (l : List Char) : trimList (trimList l) = trimList l := by
  rw [trimList, trimList, dropWs_dropWsEnd (dropWs l) (dropWs_dropWs l),
    dropWsEnd_dropWsEnd]

/-- Trimming the extracted fence body (leading whitespace already removed,
one newline appended) gives back the trim of the original text. -/
theorem trimList_dropWs_append (t : List Char) (h : dropWs t ≠ []) :
    trimList (dropWs t ++ ['\n']) = trimList t := by
  rw [trimList, dropWs_append_of_ne_nil ['\n'] (by rw [dropWs_dropWs]; exact h),
    dropWs_dropWs, dropWsEnd_append_nl, trimList]

/-- A parse success needs a non-whitespace character. -/
theorem parse_some_dropWs_ne {t : List Char} {v : Json}
    (hp : parse t = some v) : dropWs t ≠ [] := by
  intro h
  rw [parse, trimList, h] at hp
  simp [dropWsEnd, parseCore, parseValue, dropWs] at hp

/-- No fence occurs in any `dropWhile` of a fence-free list. -/
theorem hasFence_dropWhile {p : Char → Bool} :
    ∀ {l : List Char}, hasFence l = false → hasFence (l.dropWhile p) = false := by
  intro l
  induction l with
  | nil => intro h; exact h
  | cons c r ih =>
    intro h
    rw [hasFence, Bool.or_eq_false_iff] at h
    rw [List.dropWhile_cons]
    by_cases hc : p c = true
    · rw [if_pos hc]
      exact ih h.2
    · rw [if_neg hc]
      rw [hasFence, Bool.or_eq_false_iff]
      exact h

/-- A fence cannot appear at the head after appending a newline-led tail
to a list whose head position carries no fence. -/
theorem startsWithFence_append_false (c : Char) (u z : List Char)
    (h : startsWithFence (c :: u) = false) :
    startsWithFence (c :: (u ++ '\n' :: z)) = false := by
  match u with
  | [] =>
    cases z with
    | nil => rfl
    | cons x z2 =>
      simp only [List.nil_append, startsWithFence]
      apply decide_eq_false
      rintro ⟨-, h2, -⟩
      exact absurd h2 (by decide)
  | [d] =>
    simp only [List.cons_append, List.nil_append, startsWithFence]
    apply decide_eq_false
    rintro ⟨-, -, h3⟩
    exact absurd h3 (by decide)
  | d :: e :: u2 =>
    simp only [startsWithFence] at h ⊢
    exact h

/-- Scanning a fence-free prefix followed by `"\n\x60\x60\x60" ++ z` stops
exactly at that closing fence. -/
theorem scanToFence_append (z : List Char) :
    ∀ (u : List Char), hasFence u = false →
      scanToFence (u ++ '\n' :: '\x60' :: '\x60' :: '\x60' :: z) =
        some (u ++ ['\n'], z) := by
  intro u
  induction u with
  | nil =>
    intro _
    rw [List.nil_append, scanToFence, if_neg (by rw [show startsWithFence
      ('\n' :: '\x60' :: '\x60' :: '\x60' :: z) = false from rfl]; simp),
      scanToFence, if_pos (show startsWithFence
        ('\x60' :: '\x60' :: '\x60' :: z) = true from rfl)]
    rfl
  | cons c u2 ih =>
    intro h
    rw [hasFence, Bool.or_eq_false_iff] at h
    rw [List.cons_append, scanToFence,
      if_neg (by rw [startsWithFence_append_false c u2 _ h.1]; simp),
      ih h.2]
    simp

/-- The fence regex on the wrapped text captures the trimmed-left content
followed by one newline. -/
theorem extractFence_wrapFence (t : List Char) (hf : hasFence t = false)
    (hne : dropWs t ≠ []) :
    extractFence (wrapFence t) = some (dropWs t ++ ['\n']) := by
  have h1 : scanToFence (wrapFence t) =
      some ([], 'j' :: 's' :: 'o' :: 'n' :: '\n' ::
        (t ++ ['\n', '\x60', '\x60', '\x60'])) := by
    rw [wrapFence, scanToFence,
      if_pos (show startsWithFence ('\x60' :: '\x60' :: '\x60' :: 'j' :: 's' ::
        'o' :: 'n' :: '\n' :: (t ++ ['\n', '\x60', '\x60', '\x60'])) = true from rfl)]
    rfl
  have h2 : dropWs (stripJsonTag ('j' :: 's' :: 'o' :: 'n' :: '\n' ::
      (t ++ ['\n', '\x60', '\x60', '\x60']))) =
        dropWs t ++ '\n' :: '\x60' :: '\x60' :: '\x60' :: [] := by
    rw [show stripJsonTag ('j' :: 's' :: 'o' :: 'n' :: '\n' ::
      (t ++ ['\n', '\x60', '\x60', '\x60'])) =
        '\n' :: (t ++ ['\n', '\x60', '\x60', '\x60']) from rfl]
    rw [show dropWs ('\n' :: (t ++ ['\n', '\x60', '\x60', '\x60'])) =
        dropWs (t ++ ['\n', '\x60', '\x60', '\x60']) from by
      rw [dropWs, List.dropWhile_cons, if_pos (show isWs '\n' = true from rfl)]
      rfl]
    rw [dropWs_append_of_ne_nil _ hne]
  simp only [extractFence, h1, h2,
    scanToFence_append [] (dropWs t) (hasFence_dropWhile hf)]

/-- The wrapped text never parses directly: it opens with a backtick. -/
theorem parse_wrapFence_none (t : List Char) : parse (wrapFence t) = none := by
  have htrim : trimList (wrapFence t) = wrapFence t := by
    have hrev : (wrapFence t).reverse =
        '\x60' :: '\x60' :: '\x60' :: '\n' ::
          (t.reverse ++ ['\n', 'n', 'o', 's', 'j', '\x60', '\x60', '\x60']) := by
      rw [wrapFence]
      simp [List.reverse_append]
    rw [trimList, wrapFence, dropWs, dropWhile_of_head_false _ rfl, dropWsEnd,
      ← wrapFence, hrev, dropWhile_of_head_false _ rfl, ← hrev,
      List.reverse_reverse]
  rw [parse, htrim, parseCore]
  rw [show parseValue ((wrapFence t).length + 1) (wrapFence t) = none from by
    rw [wrapFence, parseValue]
    rw [dropWs, dropWhile_of_head_false _ rfl]
    simp [show isDigit '\x60' = false from rfl]]

/-- Property lookup after an in-place override, at the overridden key. -/
theorem getField_setField_same (fs : List (String × Json)) (k : String) (v : Json) :
    getField (setField fs k v) k = some v := by
  induction fs with
  | nil => simp [setField, getField]
  | cons kv fs ih =>
    obtain ⟨k0, v0⟩ := kv
    by_cases h : k0 = k
    · simp [setField, getField, h]
    · simp [setField, getField, h, ih]

/-- Property lookup after an in-place override, at any other key. -/
theorem getField_setField_ne (fs : List (String × Json)) (k : String) (v : Json)
    (q : String) (hq : q ≠ k) : getField (setField fs k v) q = getField fs q := by
  induction fs with
  | nil => simp [setField, getField, Ne.symm hq]
  | cons kv fs ih =>
    obtain ⟨k0, v0⟩ := kv
    by_cases h : k0 = k
    · subst h
      simp [setField, getField, Ne.symm hq]
    · by_cases h2 : k0 = q
      · subst h2
        simp [setField, getField, h]
      · simp [setField, getField, h, h2, ih]

/-- A model-call oracle failing on every listed model makes the cascade
fail. -/
theorem tryModels_eq_none (call : String → Option (List Char))
    (ms : List String) (h : ∀ m ∈ ms, call m = none) :
    tryModels call ms = none := by
  induction ms with
  | nil => rfl
  | cons m ms ih =>
    have hm : call m = none := h m (List.mem_cons_self m ms)
    simp only [tryModels, hm]
    exact ih (fun x hx => h x (List.mem_cons_of_mem m hx))

/-- The batch loop appends exactly the payloads of the successful files,
in file order, after the previously created items. -/
theorem batchRun_eq_append (resizeImage : Nat → Nat → ℚ → String)
    (analyze : Nat → Option Json) (files : List Nat) :
    ∀ store, batchRun resizeImage analyze files store =
      store ++ files.filterMap (payloadOf resizeImage analyze) := by
  induction files with
  | nil => intro store; simp [batchRun]
  | cons f rest ih =>
    intro store
    cases h : analyze f with
    | none => simp [batchRun, h, ih, List.filterMap_cons, payloadOf]
    | some d => simp [batchRun, h, ih, List.filterMap_cons, payloadOf]

/-- The progress counts emitted by the batch loop: one entry per file,
incrementing from the running offset. -/
theorem batchCounts_eq (files : List Nat) :
    ∀ (total done : Nat), batchCounts files total done =
      (List.range files.length).map (fun i => (done + i + 1, total)) := by
  induction files with
  | nil => intro total done; simp [batchCounts]
  | cons f rest ih =>
    intro total done
    rw [batchCounts, ih total (done + 1), List.length_cons,
      List.range_succ_eq_map, List.map_cons, List.map_map]
    congr 1
    apply List.map_congr_left
    intro i _
    simp only [Function.comp]
    congr 1
    omega

/-! ## C4 -/

/-- C4 counterexample: the claim quantifies over every JSON text, but the
fence fallback's lazy capture stops at the first triple backtick, so a JSON
text whose string content itself contains a fence parses unwrapped yet
fails when wrapped in a fenced code block: at
`\x7b"a":"x\x60\x60\x60y"\x7d` the direct parse succeeds while the wrapped
text yields no parse at all. -/
theorem fenced_json_with_inner_fence_diverges :
    parse ceT =
      some (Json.obj [("a", Json.str (String.mk ['x', '\x60', '\x60', '\x60', 'y']))]) ∧
    parseData (wrapFence ceT) = none :=
  ⟨rfl, rfl⟩

/-- C4 (amended): for every JSON text that does not itself contain a
triple-backtick fence, the adapter's response parsing applied to the text
wrapped in a fenced code block produces the same parsed data as applied to
the unwrapped text — the direct parse of the wrapped text fails, the
fenced block's contents are extracted, trimmed and parsed, and the result
agrees. -/
theorem fenced_parse_equiv (t : List Char) (v : Json)
    (hf : hasFence t = false) (hp : parse t = some v) :
    parseData (wrapFence t) = some v := by
  have hne : dropWs t ≠ [] := parse_some_dropWs_ne hp
  have h1 : parse (wrapFence t) = none := parse_wrapFence_none t
  have h2 : extractFence (wrapFence t) = some (dropWs t ++ ['\n']) :=
    extractFence_wrapFence t hf hne
  simp only [parseData, h1, h2]
  rw [trimList_dropWs_append t hne, parse, trimList_idem]
  exact hp

/-- C4 witness: the fence-free JSON text `1`. -/
theorem fenced_parse_equiv_instance :
    parseData (wrapFence ['1']) = some (Json.num "1") :=
  fenced_parse_equiv ['1'] (Json.num "1") rfl rfl

/-! ## C1 -/

/-- C1: the claim says `PUT /api/items/:id` on a nonexistent id fails with
a 404 `NotFoundError`.  The code does not: `updateItem` returns no row and
raises no error for a missing id, and the handler serialises the
`undefined` result on the 200 path.  Evaluated at a store holding only
item 1 and a request for id 2, the handler answers 200 with no item and
leaves the store unchanged — not a 404. -/
theorem put_update_missing_id_returns_200 :
    putItemHandler [itA] 2 (some pName) = (UpdateResponse.ok none, [itA]) ∧
    updateStatus (putItemHandler [itA] 2 (some pName)).1 = 200 ∧
    updateStatus (putItemHandler [itA] 2 (some pName)).1 ≠ 404 := by
  refine ⟨rfl, rfl, by decide⟩

/-! ## C5 -/

/-- C5: the analyze route's normalisation defaults a missing `name` to the
placeholder literal, defaults a missing `vibes` to the empty list, coerces
an object-typed `identifiers` to its JSON serialisation, and passes the
raw response through as `ambientData`. -/
theorem normalize_defaults (fs : List (String × Json)) :
    (jsGet (Json.obj fs) "name" = none →
      (normalize (Json.obj fs)).name = Json.str "Unknown Item") ∧
    (jsGet (Json.obj fs) "vibes" = none →
      (normalize (Json.obj fs)).vibes = Json.arr []) ∧
    (∀ v, jsGet (Json.obj fs) "identifiers" = some v → typeofIsObject v = true →
      (normalize (Json.obj fs)).identifiers = some (Json.str (stringify v))) ∧
    (normalize (Json.obj fs)).ambientData = Json.obj fs := by
  refine ⟨?_, ?_, ?_, rfl⟩
  · intro h; simp [normalize, jsOr, h]
  · intro h; simp [normalize, h]
  · intro v hv hobj; simp [normalize, hv, hobj]

/-- C5 witness: a response with only an object-typed `identifiers`. -/
theorem normalize_defaults_instance :
    (normalize (Json.obj fsId)).name = Json.str "Unknown Item" ∧
    (normalize (Json.obj fsId)).vibes = Json.arr [] ∧
    (normalize (Json.obj fsId)).identifiers =
      some (Json.str (stringify (Json.obj [("isbn", Json.str "123")]))) ∧
    (normalize (Json.obj fsId)).ambientData = Json.obj fsId :=
  ⟨(normalize_defaults fsId).1 rfl, (normalize_defaults fsId).2.1 rfl,
   (normalize_defaults fsId).2.2.1 (Json.obj [("isbn", Json.str "123")]) rfl rfl,
   (normalize_defaults fsId).2.2.2⟩

/-! ## C6 -/

/-- C6: `getItems` returns all stored items — a permutation of the store,
whatever the insertion order — sorted by `addedAt` descending. -/
theorem getItems_sorted_desc_perm (store : List Item) :
    List.Sorted recencyGE (getItems store) ∧ (getItems store).Perm store :=
  ⟨List.sorted_insertionSort recencyGE store, List.perm_insertionSort recencyGE store⟩

/-! ## C7 -/

/-- C7: the batch loop is strictly sequential over the files, appending
one created item per successful file after the items created earlier (so
earlier successes are never rolled back), skipping a failed file without
halting the remainder, and emitting one incrementing done/total count per
file. -/
theorem batch_sequential_isolated (resizeImage : Nat → Nat → ℚ → String)
    (analyze : Nat → Option Json) (files : List Nat) (store : List Json) :
    batchRun resizeImage analyze files store =
      store ++ files.filterMap (payloadOf resizeImage analyze) ∧
    (∀ f rest s, analyze f = none →
      batchRun resizeImage analyze (f :: rest) s =
        batchRun resizeImage analyze rest s) ∧
    batchCounts files files.length 0 =
      (List.range files.length).map (fun i => (i + 1, files.length)) := by
  refine ⟨batchRun_eq_append resizeImage analyze files store, ?_, ?_⟩
  · intro f rest s hf
    simp [batchRun, hf]
  · simpa using batchCounts_eq files files.length 0

/-- C7 witness: a failing first file is skipped without halting. -/
theorem batch_sequential_isolated_instance :
    batchRun resizeConst analyzeFail (1 :: [2]) [] =
      batchRun resizeConst analyzeFail [2] [] :=
  (batch_sequential_isolated resizeConst analyzeFail [1, 2] []).2.1 1 [2] [] rfl

/-! ## C8 -/

/-- C8: the delete handler always answers 204; deleting an absent id
leaves the store unchanged; and deleting twice equals deleting once. -/
theorem delete_idempotent (store : List Item) (id : Nat) :
    (deleteItemHandler store id).1 = 204 ∧
    ((∀ it ∈ store, it.id ≠ id) → deleteItem store id = store) ∧
    deleteItem (deleteItem store id) id = deleteItem store id := by
  refine ⟨rfl, ?_, ?_⟩
  · intro h
    exact List.filter_eq_self.mpr (fun a ha => by simpa using h a ha)
  · rw [deleteItem, deleteItem, List.filter_filter]
    simp [deleteItem]

/-- C8 witness: deleting id 3 from a store holding only item 1. -/
theorem delete_idempotent_instance :
    (deleteItemHandler [itA] 3).1 = 204 ∧ deleteItem [itA] 3 = [itA] :=
  ⟨(delete_idempotent [itA] 3).1,
   (delete_idempotent [itA] 3).2.1 (by decide)⟩

/-! ## C9 -/

/-- C9: updating an existing item touches only the supplied patch fields:
the updated row is the stored row with the patch applied, `id` and
`addedAt` are always retained (the patch cannot carry them), and every
unsupplied column keeps its previous value. -/
theorem update_mutates_only_supplied (store : List Item) (id : Nat)
    (p : ItemPatch) (it : Item) (h : findItem store id = some it) :
    (updateItem store id p).1 = some (applyPatch it p) ∧
    (applyPatch it p).id = it.id ∧
    (applyPatch it p).addedAt = it.addedAt ∧
    (p.name = none → (applyPatch it p).name = it.name) ∧
    (p.brand = none → (applyPatch it p).brand = it.brand) ∧
    (p.edition = none → (applyPatch it p).edition = it.edition) ∧
    (p.year = none → (applyPatch it p).year = it.year) ∧
    (p.identifiers = none → (applyPatch it p).identifiers = it.identifiers) ∧
    (p.vibes = none → (applyPatch it p).vibes = it.vibes) ∧
    (p.qty = none → (applyPatch it p).qty = it.qty) ∧
    (p.status = none → (applyPatch it p).status = it.status) ∧
    (p.ambientData = none → (applyPatch it p).ambientData = it.ambientData) ∧
    (p.imageUrl = none → (applyPatch it p).imageUrl = it.imageUrl) := by
  refine ⟨by simp [updateItem, h], rfl, rfl, ?_, ?_, ?_, ?_, ?_, ?_, ?_, ?_, ?_, ?_⟩
  all_goals intro hn
  all_goals simp [applyPatch, hn]

/-- C9 witness: patching only the name of item 1 keeps every other
column, including `addedAt` and `brand`. -/
theorem update_mutates_only_supplied_instance :
    (updateItem [itA] 1 pName).1 = some (applyPatch itA pName) ∧
    (applyPatch itA pName).addedAt = itA.addedAt ∧
    (applyPatch itA pName).brand = itA.brand :=
  ⟨(update_mutates_only_supplied [itA] 1 pName itA rfl).1,
   (update_mutates_only_supplied [itA] 1 pName itA rfl).2.2.1,
   (update_mutates_only_supplied [itA] 1 pName itA rfl).2.2.2.2.1 rfl⟩

/-! ## C10 -/

/-- C10: when the parsed response's `identifiers` is JSON `null`, the
normalisation emits the four-character string `"null"` (because
`typeof null` is `'object'`, `null` goes through `JSON.stringify`),
rather than leaving the field null or absent. -/
theorem identifiers_null_stringified (fs : List (String × Json))
    (h : jsGet (Json.obj fs) "identifiers" = some Json.null) :
    (normalize (Json.obj fs)).identifiers = some (Json.str "null") ∧
    (stringify Json.null).length = 4 := by
  constructor
  · simp [normalize, h, typeofIsObject, stringify]
  · rfl

/-- C10 witness: a response whose `identifiers` member is `null`. -/
theorem identifiers_null_stringified_instance :
    (normalize (Json.obj fsNull)).identifiers = some (Json.str "null") :=
  (identifiers_null_stringified fsNull rfl).1

/-! ## C2 -/

/-- C2: the analyze upload handler tries the model identifiers of
`modelsToTry` in order and stops at the first success (any success of the
cascade splits the list into failing earlier models, the succeeding model
and the untried rest); when every model call fails it answers 500 with no
payload; and on no path does it write to the item store. -/
theorem analyze_model_fallback :
    (∀ (call : String → Option (List Char)) (ms : List String)
        (m : String) (r : List Char),
      tryModels call ms = some (m, r) →
      ∃ pre post, ms = pre ++ m :: post ∧
        (∀ x ∈ pre, call x = none) ∧ call m = some r) ∧
    (∀ (call : String → Option (List Char)) (u : String) (store : List Item),
      (∀ m ∈ modelsToTry, call m = none) →
      analyzeUpload call true true u store = ((500, none), store)) ∧
    (∀ (call : String → Option (List Char)) (hasKey hasFile : Bool)
        (u : String) (store : List Item),
      (analyzeUpload call hasKey hasFile u store).2 = store) := by
  refine ⟨?_, ?_, ?_⟩
  · intro call ms
    induction ms with
    | nil => intro m r h; simp [tryModels] at h
    | cons m0 ms ih =>
      intro m r h
      cases hc : call m0 with
      | some r0 =>
        simp [tryModels, hc] at h
        obtain ⟨h1, h2⟩ := h
        subst h1; subst h2
        exact ⟨[], ms, rfl, by simp, hc⟩
      | none =>
        simp [tryModels, hc] at h
        obtain ⟨pre, post, hsplit, hpre, hm⟩ := ih m r h
        refine ⟨m0 :: pre, post, by simp [hsplit], ?_, hm⟩
        intro x hx
        rcases List.mem_cons.mp hx with hx | hx
        · rw [hx]; exact hc
        · exact hpre x hx
  · intro call u store h
    simp [analyzeUpload, tryModels_eq_none call modelsToTry h]
  · intro call hasKey hasFile u store
    cases hasKey with
    | false => simp [analyzeUpload]
    | true =>
      cases hasFile with
      | false => simp [analyzeUpload]
      | true =>
        simp only [analyzeUpload]
        cases ht : tryModels call modelsToTry with
        | none => simp
        | some pr =>
          obtain ⟨m, text⟩ := pr
          by_cases he : text.isEmpty
          · simp [he]
          · simp only [he, Bool.false_eq_true, if_false]
            cases hp : parseData text <;> simp [hp]

/-- C2 witness: with every model call failing, the handler answers 500
with no payload and an untouched (empty) store; and the store also passes
through unchanged for an arbitrary configured call. -/
theorem analyze_model_fallback_instance :
    analyzeUpload callAllFail true true "url" [] = ((500, none), []) ∧
    (analyzeUpload callAllFail true true "url" [itA]).2 = [itA] :=
  ⟨analyze_model_fallback.2.1 callAllFail "url" [] (fun _ _ => rfl),
   analyze_model_fallback.2.2 callAllFail true true "url" [itA]⟩

/-! ## C3 -/

/-- C3 counterexample: the claim says the single-image capture flow also
produces a client-side thumbnail and posts the create request with the
thumbnail replacing any server-returned image.  At a concrete file and
analysis response, `handleCapture` performs no resize action and posts the
analysis response unchanged — and that payload differs from the
thumbnail-substituted payload the claim requires. -/
theorem capture_flow_no_thumbnail :
    handleCapture analyzeSrv 0 =
      [ClientAction.postAnalyze 0, ClientAction.postCreate dSrv] ∧
    dSrv ≠ jsSpreadSet dSrv "imageUrl" (Json.str "thumb") := by
  refine ⟨rfl, ?_⟩
  intro h
  simp [dSrv, jsSpreadSet, setField] at h

/-- C3 (amended): only the batch flow resizes; per uploaded file the batch
flow resizes to the fixed 400px/0.7 thumbnail, posts the file to the
analysis endpoint, then posts the response with the thumbnail replacing
any returned `imageUrl` (all other members unchanged); the capture flow
posts the file to the analysis endpoint and then posts the analysis
response unchanged, with no thumbnail step. -/
theorem client_flows_thumbnail_policy (resizeImage : Nat → Nat → ℚ → String)
    (analyze : Nat → Option Json) (file : Nat) (d : Json)
    (h : analyze file = some d) :
    handleCapture analyze file =
      [ClientAction.postAnalyze file, ClientAction.postCreate d] ∧
    batchFileFlow resizeImage analyze file =
      [ClientAction.resizeThumb file 400 (7 / 10), ClientAction.postAnalyze file,
       ClientAction.postCreate
         (jsSpreadSet d "imageUrl" (Json.str (resizeImage file 400 (7 / 10))))] ∧
    jsGet (jsSpreadSet d "imageUrl" (Json.str (resizeImage file 400 (7 / 10))))
        "imageUrl" = some (Json.str (resizeImage file 400 (7 / 10))) ∧
    (∀ k, k ≠ "imageUrl" →
      jsGet (jsSpreadSet d "imageUrl" (Json.str (resizeImage file 400 (7 / 10)))) k =
        jsGet d k) := by
  refine ⟨by simp [handleCapture, h], by simp [batchFileFlow, h], ?_, ?_⟩
  · cases d <;> simp [jsSpreadSet, jsGet, getField, getField_setField_same]
  · intro k hk
    cases d <;>
      simp [jsSpreadSet, jsGet, getField, getField_setField_ne _ _ _ _ hk,
        Ne.symm hk]

/-- C3 (amended) witness: the two flows at a concrete file, oracle and
thumbnail function. -/
theorem client_flows_thumbnail_policy_instance :
    handleCapture analyzeSrv 5 =
      [ClientAction.postAnalyze 5, ClientAction.postCreate dSrv] ∧
    batchFileFlow resizeConst analyzeSrv 5 =
      [ClientAction.resizeThumb 5 400 (7 / 10), ClientAction.postAnalyze 5,
       ClientAction.postCreate
         (jsSpreadSet dSrv "imageUrl" (Json.str (resizeConst 5 400 (7 / 10))))] ∧
    jsGet (jsSpreadSet dSrv "imageUrl" (Json.str (resizeConst 5 400 (7 / 10))))
        "imageUrl" = some (Json.str (resizeConst 5 400 (7 / 10))) :=
  ⟨(client_flows_thumbnail_policy resizeConst analyzeSrv 5 dSrv rfl).1,
   (client_flows_thumbnail_policy resizeConst analyzeSrv 5 dSrv rfl).2.1,
   (client_flows_thumbnail_policy resizeConst analyzeSrv 5 dSrv rfl).2.2.1⟩

end TangleTrove
